import Mathlib

/-
Shallow embedding of `src/storage.py` from the hey_fireball repository.

The module defines an abstract `Storage` contract with two backends:

* `RedisStorage`: each user is a Redis hash keyed by the user id with the
  fields POINTS_USED and POINTS_RECEIVED, plus a set under the fixed key
  USERS_LIST that is read by `get_users_and_scores`.
* `InMemoryStorage`: a Python dict from user id to an inner dict from
  field name to integer.

Only the two field names POINTS_USED and POINTS_RECEIVED are ever written
to an inner dict (or Redis hash), so a user record is embedded as a pair
of optional integers: `none` means the field is absent.  Python dicts
preserve insertion order, so the outer dict is embedded as an association
list with unique keys where a fresh key is appended at the end.  Python
integers are unbounded, hence `Int`.  A Python exception is embedded as
`Except StorageErr`: `KeyError` from a failed `dict[key]` lookup and
`TypeError` from `int(None)` (which is what `int(redis.hget(...))` raises
when the hash field is absent).
-/

namespace HeyFireball

/-- Failure modes of the storage layer: a Python `KeyError` from a direct
dict lookup, or a Python `TypeError` from `int(None)`. -/
inductive StorageErr where
  | keyError
  | typeError
deriving DecidableEq, Repr

/-- One user record: the inner dict of `InMemoryStorage._data[user_id]`
(or the Redis hash stored at key `user_id`).  Only the two field names
POINTS_USED and POINTS_RECEIVED are ever written, so the record is a pair
of optional integers, `none` meaning the field is absent. -/
structure UserData where
  points_used : Option Int
  points_received : Option Int
deriving DecidableEq, Repr

/-- A user record with no fields, as produced by `setdefault(user_id, {})`. -/
def emptyUser : UserData := ⟨none, none⟩

/-- The outer dict: association list from user id to record, unique keys,
insertion order preserved (Python dict semantics). -/
abbrev Dict := List (String × UserData)

/-- Embedding of a Python dict lookup `d.get(k)` / `k in d`. -/
def dictFind : Dict → String → Option UserData
  | [], _ => none
  | (k, v) :: rest, u => if k = u then some v else dictFind rest u

/-- Embedding of `d.setdefault(k, {})` followed by a mutation `f` of the
inner record: update in place when the key is present, append `(k, f {})`
at the end otherwise (Python dict insertion order). -/
def dictUpd : Dict → String → (UserData → UserData) → Dict
  | [], u, f => [(u, f emptyUser)]
  | (k, v) :: rest, u, f =>
    if k = u then (k, f v) :: rest else (k, v) :: dictUpd rest u f

/-! ### InMemoryStorage

Embedding of `class InMemoryStorage(Storage)` (src/storage.py:108-144).
The state is the instance attribute `self._data`. -/

/-- The `self._data` dict of an `InMemoryStorage` instance; `__init__`
sets it to an empty dict. -/
abbrev MemState := Dict

/-- Embedding of `InMemoryStorage.user_exists`: `user_id in self._data`. -/
def memUserExists (σ : MemState) (u : String) : Bool :=
  (dictFind σ u).isSome

/-- Embedding of `InMemoryStorage.get_user_points_used`:
`self._data[user_id].get(POINTS_USED, 0)`.  The outer subscript raises
`KeyError` when the user id is not a key; the inner `.get` defaults to 0. -/
def memGetPointsUsed (σ : MemState) (u : String) : Except StorageErr Int :=
  match dictFind σ u with
  | none => .error .keyError
  | some r => .ok (r.points_used.getD 0)

/-- Embedding of `InMemoryStorage.get_user_points_received`:
`self._data[user_id].get(POINTS_RECEIVED, 0)`. -/
def memGetPointsReceived (σ : MemState) (u : String) : Except StorageErr Int :=
  match dictFind σ u with
  | none => .error .keyError
  | some r => .ok (r.points_received.getD 0)

/-- Embedding of `InMemoryStorage.add_user_points_used`:
`user_data = self._data.setdefault(user_id, {});
user_data[POINTS_USED] = user_data.get(POINTS_USED, 0) + num`. -/
def memAddPointsUsed (σ : MemState) (u : String) (n : Int) : MemState :=
  dictUpd σ u (fun r => { r with points_used := some (r.points_used.getD 0 + n) })

/-- Embedding of `InMemoryStorage.add_user_points_received`:
`user_data = self._data.setdefault(user_id, {});
user_data[POINTS_RECEIVED] = user_data.get(POINTS_RECEIVED, 0) + num`. -/
def memAddPointsReceived (σ : MemState) (u : String) (n : Int) : MemState :=
  dictUpd σ u (fun r => { r with points_received := some (r.points_received.getD 0 + n) })

/-- Embedding of `InMemoryStorage.get_users_and_scores`:
`[(k, v[POINTS_RECEIVED]) for k, v in self._data.items()]`.  The direct
subscript `v[POINTS_RECEIVED]` raises `KeyError` when the field is absent. -/
def memGetUsersAndScores : MemState → Except StorageErr (List (String × Int))
  | [] => .ok []
  | (k, r) :: rest =>
    match r.points_received with
    | none => .error .keyError
    | some v => (memGetUsersAndScores rest).map (fun l => (k, v) :: l)

/-! ### RedisStorage

Embedding of `class RedisStorage(Storage)` (src/storage.py:57-105).
The state is the content of the Redis server reachable from
`self._redis`: the user hashes plus the set stored at USERS_LIST. -/

/-- The Redis server state: `hashes` maps a key to the hash stored at it
(only the two fields POINTS_USED / POINTS_RECEIVED are ever written), and
`users` is the set stored at the fixed key USERS_LIST, kept as a
duplicate-free list. -/
structure RedisState where
  hashes : Dict
  users : List String
deriving DecidableEq, Repr

/-- A fresh Redis server with no keys. -/
def redisEmpty : RedisState := ⟨[], []⟩

/-- Embedding of `SADD USERS_LIST u`: set addition is idempotent. -/
def saddUser (l : List String) (u : String) : List String :=
  if u ∈ l then l else l ++ [u]

/-- Embedding of `RedisStorage._create_user_entry`:
`hmset(user_id, {POINTS_USED: 0, POINTS_RECEIVED: 0})` overwrites both
fields with 0, then `sadd(USERS_LIST, user_id)`.  Note: no method of
`RedisStorage` ever calls this helper. -/
def createUserEntry (σ : RedisState) (u : String) : RedisState :=
  { hashes := dictUpd σ.hashes u (fun _ => ⟨some 0, some 0⟩),
    users := saddUser σ.users u }

/-- Embedding of `RedisStorage.user_exists`: `EXISTS user_id`, true iff a
hash is stored at the key (HINCRBY auto-creates the hash). -/
def redisUserExists (σ : RedisState) (u : String) : Bool :=
  (dictFind σ.hashes u).isSome

/-- Embedding of `RedisStorage.get_user_points_used`:
`int(hget(user_id, POINTS_USED))`.  HGET returns nil when the key or the
field is absent, and Python `int(None)` raises `TypeError`. -/
def redisGetPointsUsed (σ : RedisState) (u : String) : Except StorageErr Int :=
  match (dictFind σ.hashes u).bind (fun r => r.points_used) with
  | none => .error .typeError
  | some v => .ok v

/-- Embedding of `RedisStorage.get_user_points_received`:
`int(hget(user_id, POINTS_RECEIVED))`. -/
def redisGetPointsReceived (σ : RedisState) (u : String) : Except StorageErr Int :=
  match (dictFind σ.hashes u).bind (fun r => r.points_received) with
  | none => .error .typeError
  | some v => .ok v

/-- Embedding of `RedisStorage.add_user_points_used`:
`HINCRBY user_id POINTS_USED num` — creates the hash and the field at 0
when absent, then adds `num`.  This is the whole method body: it does not
call `_create_user_entry` and never touches USERS_LIST. -/
def redisAddPointsUsed (σ : RedisState) (u : String) (n : Int) : RedisState :=
  { σ with hashes :=
      dictUpd σ.hashes u (fun r => { r with points_used := some (r.points_used.getD 0 + n) }) }

/-- Embedding of `RedisStorage.add_user_points_received`:
`HINCRBY user_id POINTS_RECEIVED num`. -/
def redisAddPointsReceived (σ : RedisState) (u : String) (n : Int) : RedisState :=
  { σ with hashes :=
      dictUpd σ.hashes u (fun r => { r with points_received := some (r.points_received.getD 0 + n) }) }

/-- Helper for `get_users_and_scores`: one `get_user_points_received` call
per member of the USERS_LIST set, first failure propagates. -/
def redisScoresOf (σ : RedisState) : List String → Except StorageErr (List (String × Int))
  | [] => .ok []
  | u :: rest =>
    match redisGetPointsReceived σ u with
    | .error e => .error e
    | .ok v => (redisScoresOf σ rest).map (fun l => (u, v) :: l)

/-- Embedding of `RedisStorage.get_users_and_scores`:
`[(user, self.get_user_points_received(user)) for user in smembers(USERS_LIST)]`. -/
def redisGetUsersAndScores (σ : RedisState) : Except StorageErr (List (String × Int)) :=
  redisScoresOf σ σ.users

/-! ### Operational semantics

A uniform step function over the six contract operations, for the claims
that quantify over sequences of public-contract operations.  Each Python
method is a state transformer: it returns the new store state and either
a value or the exception it raises.  Methods whose bodies contain no
mutation of the store return the state unchanged, exactly as the source
does. -/

/-- Result value of one contract operation. -/
inductive Val where
  | bool (b : Bool)
  | int (n : Int)
  | unit
  | pairs (l : List (String × Int))
deriving DecidableEq, Repr

/-- The six operations of the `Storage` contract. -/
inductive Op where
  | userExists (u : String)
  | getPointsUsed (u : String)
  | addPointsUsed (u : String) (n : Int)
  | getPointsReceived (u : String)
  | addPointsReceived (u : String) (n : Int)
  | getUsersAndScores
deriving DecidableEq, Repr

/-- True for the four operations whose Python bodies never assign into
the store. -/
def Op.isRead : Op → Bool
  | .addPointsUsed _ _ => false
  | .addPointsReceived _ _ => false
  | _ => true

/-- The `num` argument of an add operation, 0 for the other operations. -/
def Op.amount : Op → Int
  | .addPointsUsed _ n => n
  | .addPointsReceived _ n => n
  | _ => 0

/-- One `InMemoryStorage` method call: resulting `self._data` and the
returned value or raised exception. -/
def memStep : Op → MemState → MemState × Except StorageErr Val
  | .userExists u, σ => (σ, .ok (.bool (memUserExists σ u)))
  | .getPointsUsed u, σ => (σ, (memGetPointsUsed σ u).map .int)
  | .addPointsUsed u n, σ => (memAddPointsUsed σ u n, .ok .unit)
  | .getPointsReceived u, σ => (σ, (memGetPointsReceived σ u).map .int)
  | .addPointsReceived u n, σ => (memAddPointsReceived σ u n, .ok .unit)
  | .getUsersAndScores, σ => (σ, (memGetUsersAndScores σ).map .pairs)

/-- One `RedisStorage` method call. -/
def redisStep : Op → RedisState → RedisState × Except StorageErr Val
  | .userExists u, σ => (σ, .ok (.bool (redisUserExists σ u)))
  | .getPointsUsed u, σ => (σ, (redisGetPointsUsed σ u).map .int)
  | .addPointsUsed u n, σ => (redisAddPointsUsed σ u n, .ok .unit)
  | .getPointsReceived u, σ => (σ, (redisGetPointsReceived σ u).map .int)
  | .addPointsReceived u n, σ => (redisAddPointsReceived σ u n, .ok .unit)
  | .getUsersAndScores, σ => (σ, (redisGetUsersAndScores σ).map .pairs)

/-- Run a sequence of contract operations on `InMemoryStorage`,
keeping only the store state. -/
def execMem (ops : List Op) (σ : MemState) : MemState :=
  ops.foldl (fun s op => (memStep op s).1) σ

/-- Run a sequence of contract operations on `RedisStorage`. -/
def execRedis (ops : List Op) (σ : RedisState) : RedisState :=
  ops.foldl (fun s op => (redisStep op s).1) σ

/-- Fold `add_user_points_used` over a list of amounts for one user. -/
def memAddManyUsed (u : String) (ns : List Int) (σ : MemState) : MemState :=
  ns.foldl (fun s n => memAddPointsUsed s u n) σ

/-- Value of the POINTS_USED counter as observed through the getter,
with 0 for a missing user or field.  Proof-layer abbreviation. -/
def memUsedD (σ : MemState) (u : String) : Int :=
  ((dictFind σ u).map (fun r => r.points_used.getD 0)).getD 0

/-- Value of the POINTS_RECEIVED counter with 0 for a missing user or
field.  Proof-layer abbreviation. -/
def memRecvD (σ : MemState) (u : String) : Int :=
  ((dictFind σ u).map (fun r => r.points_received.getD 0)).getD 0

/-- The POINTS_USED field of a user record, `none` when the user or the
field is absent. -/
def fieldUsed (σ : MemState) (u : String) : Option Int :=
  (dictFind σ u).bind (fun r => r.points_used)

/-- The POINTS_RECEIVED field of a user record, `none` when the user or
the field is absent. -/
def fieldReceived (σ : MemState) (u : String) : Option Int :=
  (dictFind σ u).bind (fun r => r.points_received)

/-! ### Lemmas about the association-list dictionary -/

theorem dictFind_dictUpd_self (d : Dict) (u : String) (f : UserData → UserData) :
    dictFind (dictUpd d u f) u = some (f ((dictFind d u).getD emptyUser)) := by
  induction d with
  | nil => simp [dictFind, dictUpd]
  | cons hd tl ih =>
    obtain ⟨k, v⟩ := hd
    by_cases h : k = u
    · simp [dictFind, dictUpd, h]
    · simp [dictFind, dictUpd, h, ih]

theorem dictFind_dictUpd_ne (d : Dict) (u v : String) (f : UserData → UserData)
    (h : v ≠ u) : dictFind (dictUpd d u f) v = dictFind d v := by
  have h2 : ¬ u = v := fun hh => h hh.symm
  induction d with
  | nil => simp [dictFind, dictUpd, h2]
  | cons hd tl ih =>
    obtain ⟨k, w⟩ := hd
    by_cases hk : k = u
    · subst hk
      simp [dictFind, dictUpd, h2]
    · simp [dictFind, dictUpd, hk, ih]

theorem dictUpd_dictUpd_self (d : Dict) (u : String) (f g : UserData → UserData) :
    dictUpd (dictUpd d u f) u g = dictUpd d u (fun r => g (f r)) := by
  induction d with
  | nil => simp [dictUpd]
  | cons hd tl ih =>
    obtain ⟨k, v⟩ := hd
    by_cases h : k = u
    · simp [dictUpd, h]
    · simp [dictUpd, h, ih]

/-! ### Lemmas about the InMemoryStorage operations -/

theorem memUserExists_addUsed_self (σ : MemState) (u : String) (n : Int) :
    memUserExists (memAddPointsUsed σ u n) u = true := by
  simp [memUserExists, memAddPointsUsed, dictFind_dictUpd_self]

theorem memUserExists_addUsed (σ : MemState) (u v : String) (n : Int)
    (h : memUserExists σ u = true) :
    memUserExists (memAddPointsUsed σ v n) u = true := by
  by_cases hv : u = v
  · subst hv
    exact memUserExists_addUsed_self σ u n
  · simpa [memUserExists, memAddPointsUsed, dictFind_dictUpd_ne σ v u _ hv] using h

theorem memGetPointsUsed_of_exists (σ : MemState) (u : String)
    (h : memUserExists σ u = true) :
    memGetPointsUsed σ u = .ok (memUsedD σ u) := by
  unfold memUserExists at h
  unfold memGetPointsUsed memUsedD
  cases hf : dictFind σ u with
  | none => rw [hf] at h; simp at h
  | some r => simp

theorem memGetPointsReceived_of_exists (σ : MemState) (u : String)
    (h : memUserExists σ u = true) :
    memGetPointsReceived σ u = .ok (memRecvD σ u) := by
  unfold memUserExists at h
  unfold memGetPointsReceived memRecvD
  cases hf : dictFind σ u with
  | none => rw [hf] at h; simp at h
  | some r => simp

theorem memUsedD_addUsed_self (σ : MemState) (u : String) (n : Int) :
    memUsedD (memAddPointsUsed σ u n) u = memUsedD σ u + n := by
  unfold memUsedD memAddPointsUsed
  rw [dictFind_dictUpd_self]
  cases hf : dictFind σ u with
  | none => simp [emptyUser]
  | some r => simp

theorem memUsedD_addUsed_ne (σ : MemState) (u v : String) (n : Int) (h : u ≠ v) :
    memUsedD (memAddPointsUsed σ v n) u = memUsedD σ u := by
  unfold memUsedD memAddPointsUsed
  rw [dictFind_dictUpd_ne σ v u _ h]

theorem memUsedD_addRecv (σ : MemState) (u v : String) (n : Int) :
    memUsedD (memAddPointsReceived σ v n) u = memUsedD σ u := by
  by_cases h : u = v
  · subst h
    unfold memUsedD memAddPointsReceived
    rw [dictFind_dictUpd_self]
    cases hf : dictFind σ u with
    | none => simp [emptyUser]
    | some r => simp
  · unfold memUsedD memAddPointsReceived
    rw [dictFind_dictUpd_ne σ v u _ h]

theorem memRecvD_addRecv_self (σ : MemState) (u : String) (n : Int) :
    memRecvD (memAddPointsReceived σ u n) u = memRecvD σ u + n := by
  unfold memRecvD memAddPointsReceived
  rw [dictFind_dictUpd_self]
  cases hf : dictFind σ u with
  | none => simp [emptyUser]
  | some r => simp

theorem memRecvD_addRecv_ne (σ : MemState) (u v : String) (n : Int) (h : u ≠ v) :
    memRecvD (memAddPointsReceived σ v n) u = memRecvD σ u := by
  unfold memRecvD memAddPointsReceived
  rw [dictFind_dictUpd_ne σ v u _ h]

theorem memRecvD_addUsed (σ : MemState) (u v : String) (n : Int) :
    memRecvD (memAddPointsUsed σ v n) u = memRecvD σ u := by
  by_cases h : u = v
  · subst h
    unfold memRecvD memAddPointsUsed
    rw [dictFind_dictUpd_self]
    cases hf : dictFind σ u with
    | none => simp [emptyUser]
    | some r => simp
  · unfold memRecvD memAddPointsUsed
    rw [dictFind_dictUpd_ne σ v u _ h]

/-! ### Lemmas about `memAddManyUsed` -/

theorem memAddManyUsed_cons (u : String) (n : Int) (ns : List Int) (σ : MemState) :
    memAddManyUsed u (n :: ns) σ = memAddManyUsed u ns (memAddPointsUsed σ u n) := rfl

theorem memUsedD_addMany (u : String) (ns : List Int) (σ : MemState) :
    memUsedD (memAddManyUsed u ns σ) u = memUsedD σ u + ns.sum := by
  induction ns generalizing σ with
  | nil => simp [memAddManyUsed]
  | cons n rest ih =>
    rw [memAddManyUsed_cons, ih, memUsedD_addUsed_self]
    simp [List.sum_cons]
    ring

theorem memUserExists_addMany (u : String) (ns : List Int) (σ : MemState)
    (h : memUserExists σ u = true) :
    memUserExists (memAddManyUsed u ns σ) u = true := by
  induction ns generalizing σ with
  | nil => simpa [memAddManyUsed] using h
  | cons n rest ih =>
    rw [memAddManyUsed_cons]
    exact ih _ (memUserExists_addUsed_self σ u n)

/-! ### Lemmas about the operational semantics -/

theorem memStep_isRead (op : Op) (σ : MemState) (h : op.isRead = true) :
    (memStep op σ).1 = σ := by
  cases op <;> simp_all [Op.isRead, memStep]

theorem redisStep_isRead (op : Op) (σ : RedisState) (h : op.isRead = true) :
    (redisStep op σ).1 = σ := by
  cases op <;> simp_all [Op.isRead, redisStep]

theorem memUsedD_step (op : Op) (σ : MemState) (u : String) (h : 0 ≤ op.amount) :
    memUsedD σ u ≤ memUsedD (memStep op σ).1 u := by
  cases op with
  | addPointsUsed v n =>
    by_cases hv : u = v
    · subst hv
      rw [memStep, memUsedD_addUsed_self]
      simp [Op.amount] at h
      omega
    · rw [memStep, memUsedD_addUsed_ne σ u v n hv]
  | addPointsReceived v n =>
    rw [memStep, memUsedD_addRecv]
  | userExists v => rw [memStep]
  | getPointsUsed v => rw [memStep]
  | getPointsReceived v => rw [memStep]
  | getUsersAndScores => rw [memStep]

theorem memRecvD_step (op : Op) (σ : MemState) (u : String) (h : 0 ≤ op.amount) :
    memRecvD σ u ≤ memRecvD (memStep op σ).1 u := by
  cases op with
  | addPointsReceived v n =>
    by_cases hv : u = v
    · subst hv
      rw [memStep, memRecvD_addRecv_self]
      simp [Op.amount] at h
      omega
    · rw [memStep, memRecvD_addRecv_ne σ u v n hv]
  | addPointsUsed v n =>
    rw [memStep, memRecvD_addUsed]
  | userExists v => rw [memStep]
  | getPointsUsed v => rw [memStep]
  | getPointsReceived v => rw [memStep]
  | getUsersAndScores => rw [memStep]

theorem execMem_cons (op : Op) (ops : List Op) (σ : MemState) :
    execMem (op :: ops) σ = execMem ops (memStep op σ).1 := rfl

theorem execRedis_cons (op : Op) (ops : List Op) (σ : RedisState) :
    execRedis (op :: ops) σ = execRedis ops (redisStep op σ).1 := rfl

theorem memUsedD_execMem (ops : List Op) (σ : MemState) (u : String)
    (h : ∀ op ∈ ops, 0 ≤ op.amount) :
    memUsedD σ u ≤ memUsedD (execMem ops σ) u := by
  induction ops generalizing σ with
  | nil => simp [execMem]
  | cons op rest ih =>
    rw [execMem_cons]
    exact le_trans (memUsedD_step op σ u (h op (by simp)))
      (ih _ (fun o ho => h o (by simp [ho])))

theorem memRecvD_execMem (ops : List Op) (σ : MemState) (u : String)
    (h : ∀ op ∈ ops, 0 ≤ op.amount) :
    memRecvD σ u ≤ memRecvD (execMem ops σ) u := by
  induction ops generalizing σ with
  | nil => simp [execMem]
  | cons op rest ih =>
    rw [execMem_cons]
    exact le_trans (memRecvD_step op σ u (h op (by simp)))
      (ih _ (fun o ho => h o (by simp [ho])))

/-! ### Bridge between the Redis hashes and the in-memory dict

The two backends apply literally the same update to the user record: the
Redis HINCRBY on a hash field and the Python nested-dict update coincide
on the embedded record type, so a Redis run is tracked by an in-memory
run of the same operation sequence on the `hashes` component. -/

theorem redisStep_hashes (op : Op) (σ : RedisState) :
    (redisStep op σ).1.hashes = (memStep op σ.hashes).1 := by
  cases op <;> rfl

theorem execRedis_hashes (ops : List Op) (σ : RedisState) :
    (execRedis ops σ).hashes = execMem ops σ.hashes := by
  induction ops generalizing σ with
  | nil => rfl
  | cons op rest ih =>
    rw [execRedis_cons, execMem_cons, ih, redisStep_hashes]

theorem redisGetPointsUsed_ok (σ : RedisState) (u : String) (v : Int)
    (h : redisGetPointsUsed σ u = .ok v) : memUsedD σ.hashes u = v := by
  unfold redisGetPointsUsed at h
  unfold memUsedD
  cases hf : dictFind σ.hashes u with
  | none => rw [hf] at h; simp at h
  | some r =>
    rw [hf] at h
    simp only [Option.some_bind] at h
    cases hp : r.points_used with
    | none => rw [hp] at h; simp at h
    | some w =>
      rw [hp] at h
      simp at h
      simp [hp, h]

theorem redisGetPointsReceived_ok (σ : RedisState) (u : String) (v : Int)
    (h : redisGetPointsReceived σ u = .ok v) : memRecvD σ.hashes u = v := by
  unfold redisGetPointsReceived at h
  unfold memRecvD
  cases hf : dictFind σ.hashes u with
  | none => rw [hf] at h; simp at h
  | some r =>
    rw [hf] at h
    simp only [Option.some_bind] at h
    cases hp : r.points_received with
    | none => rw [hp] at h; simp at h
    | some w =>
      rw [hp] at h
      simp at h
      simp [hp, h]

theorem memGetPointsUsed_ok (σ : MemState) (u : String) (v : Int)
    (h : memGetPointsUsed σ u = .ok v) : memUsedD σ u = v := by
  unfold memGetPointsUsed at h
  unfold memUsedD
  cases hf : dictFind σ u with
  | none => rw [hf] at h; simp at h
  | some r =>
    rw [hf] at h
    simp at h
    simp [h]

theorem memGetPointsReceived_ok (σ : MemState) (u : String) (v : Int)
    (h : memGetPointsReceived σ u = .ok v) : memRecvD σ u = v := by
  unfold memGetPointsReceived at h
  unfold memRecvD
  cases hf : dictFind σ u with
  | none => rw [hf] at h; simp at h
  | some r =>
    rw [hf] at h
    simp at h
    simp [h]

/-! ### The claims -/

/-- Claim C1, divergence exhibited on the code: after the first
`add_user_points_used("alice", 5)` on a fresh Redis backend the user hash
exists (so `user_exists` is true), but only the incremented field was
created (POINTS_RECEIVED is absent, not initialized to 0), USERS_LIST is
still empty, and `get_users_and_scores` returns the empty list — "alice"
is not enumerable.  The method never calls `_create_user_entry`; the last
conjunct shows that routing the first write through `_create_user_entry`
(as the spec demands) would have made the user enumerable. -/
theorem redis_first_write_users_list_omits :
    redisUserExists (redisAddPointsUsed redisEmpty "alice" 5) "alice" = true
    ∧ dictFind (redisAddPointsUsed redisEmpty "alice" 5).hashes "alice" = some ⟨some 5, none⟩
    ∧ (redisAddPointsUsed redisEmpty "alice" 5).users = []
    ∧ redisGetUsersAndScores (redisAddPointsUsed redisEmpty "alice" 5) = .ok []
    ∧ redisGetUsersAndScores
        (redisAddPointsUsed (createUserEntry redisEmpty "alice") "alice" 5) = .ok [("alice", 0)] :=
  ⟨rfl, rfl, rfl, rfl, rfl⟩

/-- Claim C2, divergence exhibited on the code: on the Redis backend,
`get_user_points_used` / `get_user_points_received` for the never-seen
user "dave" evaluate `int(hget(...))` where HGET returns nil, so they
raise `TypeError` instead of returning 0; the same happens for a user
whose hash exists but lacks the requested field. -/
theorem redis_get_unseen_raises :
    redisGetPointsUsed redisEmpty "dave" = .error .typeError
    ∧ redisGetPointsReceived redisEmpty "dave" = .error .typeError
    ∧ redisGetPointsUsed (redisAddPointsReceived redisEmpty "dave" 1) "dave" = .error .typeError :=
  ⟨rfl, rfl, rfl⟩

/-- Claim C3: on the in-memory backend, both getters raise a `KeyError`
lookup failure when the user id is not a key of `self._data` at all, but
return 0 when the user id is a key whose inner record lacks the requested
counter field. -/
theorem inmemory_get_unseen_vs_missing_field (σ : MemState) (u v w : String)
    (ra rb : UserData)
    (hu : dictFind σ u = none)
    (hv : dictFind σ v = some ra) (hva : ra.points_used = none)
    (hw : dictFind σ w = some rb) (hwb : rb.points_received = none) :
    memGetPointsUsed σ u = .error .keyError
    ∧ memGetPointsReceived σ u = .error .keyError
    ∧ memGetPointsUsed σ v = .ok 0
    ∧ memGetPointsReceived σ w = .ok 0 := by
  refine ⟨?_, ?_, ?_, ?_⟩
  · simp [memGetPointsUsed, hu]
  · simp [memGetPointsReceived, hu]
  · simp [memGetPointsUsed, hv, hva]
  · simp [memGetPointsReceived, hw, hwb]

/-- Claim C3 witness: a concrete store where "a" is absent, "b" lacks
POINTS_USED and "c" lacks POINTS_RECEIVED. -/
theorem inmemory_get_unseen_vs_missing_field_witness :
    memGetPointsUsed [("b", ⟨none, some 3⟩), ("c", ⟨some 2, none⟩)] "a" = .error .keyError
    ∧ memGetPointsReceived [("b", ⟨none, some 3⟩), ("c", ⟨some 2, none⟩)] "a" = .error .keyError
    ∧ memGetPointsUsed [("b", ⟨none, some 3⟩), ("c", ⟨some 2, none⟩)] "b" = .ok 0
    ∧ memGetPointsReceived [("b", ⟨none, some 3⟩), ("c", ⟨some 2, none⟩)] "c" = .ok 0 :=
  inmemory_get_unseen_vs_missing_field
    [("b", ⟨none, some 3⟩), ("c", ⟨some 2, none⟩)] "a" "b" "c"
    ⟨none, some 3⟩ ⟨some 2, none⟩ rfl rfl rfl rfl rfl

/-- Claim C4: on a fresh in-memory backend, `user_exists` is false before
any write; after any nonempty sequence of `add_user_points_used(u, n)`
calls with nonnegative amounts, `user_exists(u)` is true and
`get_user_points_used(u)` returns the sum of all amounts added. -/
theorem inmemory_add_used_accumulates (u : String) (ns : List Int)
    (hns : ∀ n ∈ ns, 0 ≤ n) :
    memUserExists ([] : MemState) u = false
    ∧ (ns ≠ [] →
        memUserExists (memAddManyUsed u ns []) u = true
        ∧ memGetPointsUsed (memAddManyUsed u ns []) u = .ok ns.sum) := by
  refine ⟨rfl, fun hne => ?_⟩
  obtain ⟨n, rest, rfl⟩ := List.exists_cons_of_ne_nil hne
  have hex : memUserExists (memAddManyUsed u (n :: rest) []) u = true := by
    rw [memAddManyUsed_cons]
    exact memUserExists_addMany u rest _ (memUserExists_addUsed_self [] u n)
  refine ⟨hex, ?_⟩
  rw [memGetPointsUsed_of_exists _ _ hex]
  have hsum := memUsedD_addMany u (n :: rest) []
  have h0 : memUsedD ([] : MemState) u = 0 := rfl
  rw [h0] at hsum
  rw [hsum]
  norm_num

/-- Claim C4 witness: scenario B of the spec, `add(5)` then `add(3)` for
"bob" yields 8. -/
theorem inmemory_add_used_accumulates_witness :
    memUserExists ([] : MemState) "bob" = false
    ∧ memUserExists (memAddManyUsed "bob" [5, 3] []) "bob" = true
    ∧ memGetPointsUsed (memAddManyUsed "bob" [5, 3] []) "bob" = .ok 8 := by
  have h := inmemory_add_used_accumulates "bob" [5, 3] (by decide)
  have h2 := h.2 (by simp)
  exact ⟨h.1, h2.1, h2.2.trans (congrArg Except.ok (by decide))⟩

/-- Claim C5: scenario C — on a fresh in-memory backend,
`add_user_points_used("carol", 2)` leaves "carol" without a
POINTS_RECEIVED field, and `get_users_and_scores` then raises the
`KeyError` lookup failure instead of returning a pair for "carol". -/
theorem inmemory_enumerate_missing_received :
    memAddPointsUsed [] "carol" 2 = [("carol", ⟨some 2, none⟩)]
    ∧ memGetUsersAndScores (memAddPointsUsed [] "carol" 2) = .error .keyError :=
  ⟨rfl, rfl⟩

/-- Claim C6, divergence exhibited on the code: on the Redis backend,
calling `add_user_points_received("bob", 1)` twice on a fresh store
leaves "bob" existing but occurring zero times (an omission) in
`get_users_and_scores`, because no add operation ever inserts into
USERS_LIST; on the in-memory backend the same two calls produce exactly
one pair, as the claim states. -/
theorem redis_double_add_not_enumerated :
    redisUserExists
      (redisAddPointsReceived (redisAddPointsReceived redisEmpty "bob" 1) "bob" 1) "bob" = true
    ∧ (redisAddPointsReceived (redisAddPointsReceived redisEmpty "bob" 1) "bob" 1).users = []
    ∧ redisGetUsersAndScores
        (redisAddPointsReceived (redisAddPointsReceived redisEmpty "bob" 1) "bob" 1) = .ok []
    ∧ memGetUsersAndScores
        (memAddPointsReceived (memAddPointsReceived [] "bob" 1) "bob" 1) = .ok [("bob", 2)] :=
  ⟨rfl, rfl, rfl, rfl⟩

/-- Claim C7: on the in-memory backend, from any store and for any user,
`add_user_points_received(u, 3)` then `(u, 4)` produces the same store as
a single `add_user_points_received(u, 7)`, and the same store as adding 4
then 3; from a fresh store the final `get_user_points_received(u)` is 7. -/
theorem inmemory_add_received_commutes (σ : MemState) (u : String) :
    memAddPointsReceived (memAddPointsReceived σ u 3) u 4 = memAddPointsReceived σ u 7
    ∧ memAddPointsReceived (memAddPointsReceived σ u 3) u 4
        = memAddPointsReceived (memAddPointsReceived σ u 4) u 3
    ∧ memGetPointsReceived
        (memAddPointsReceived (memAddPointsReceived ([] : MemState) u 3) u 4) u = .ok 7 := by
  have key : ∀ (a b : Int) (d : MemState),
      memAddPointsReceived (memAddPointsReceived d u a) u b
        = dictUpd d u
            (fun r => { r with points_received := some (r.points_received.getD 0 + (a + b)) }) := by
    intro a b d
    unfold memAddPointsReceived
    rw [dictUpd_dictUpd_self]
    congr 1
    funext r
    simp [UserData.mk.injEq]
    ring
  refine ⟨?_, ?_, ?_⟩
  · rw [key 3 4 σ]
    norm_num
    rfl
  · rw [key 3 4 σ, key 4 3 σ]
    norm_num
  · rw [key 3 4 []]
    simp [dictUpd, memGetPointsReceived, dictFind, emptyUser]

/-- Claim C8 counterexample: the add operations accept a negative amount,
so the counters are not monotone under arbitrary contract operations — on
the in-memory backend, after `add_user_points_used("alice", 5)` a read
returns 5, and after the further contract operation
`add_user_points_used("alice", -5)` a read returns 0 < 5. -/
theorem counters_monotone_counterexample :
    memGetPointsUsed (memAddPointsUsed [] "alice" 5) "alice" = .ok 5
    ∧ memGetPointsUsed
        (execMem [Op.addPointsUsed "alice" (-5)] (memAddPointsUsed [] "alice" 5)) "alice" = .ok 0
    ∧ ¬ ((5 : Int) ≤ 0) :=
  ⟨rfl, rfl, by decide⟩

/-- Claim C8 (amended): on both backends, under every sequence of
public-contract operations whose add amounts are all nonnegative, neither
`get_user_points_used` nor `get_user_points_received` can return a value
smaller than an earlier successful read for the same user. -/
theorem counters_monotone_nonneg (ops : List Op) (u : String)
    (h : ∀ op ∈ ops, 0 ≤ op.amount) :
    (∀ (σ : MemState) (v1 v2 : Int), memGetPointsUsed σ u = .ok v1 →
        memGetPointsUsed (execMem ops σ) u = .ok v2 → v1 ≤ v2)
    ∧ (∀ (σ : MemState) (v1 v2 : Int), memGetPointsReceived σ u = .ok v1 →
        memGetPointsReceived (execMem ops σ) u = .ok v2 → v1 ≤ v2)
    ∧ (∀ (σ : RedisState) (v1 v2 : Int), redisGetPointsUsed σ u = .ok v1 →
        redisGetPointsUsed (execRedis ops σ) u = .ok v2 → v1 ≤ v2)
    ∧ (∀ (σ : RedisState) (v1 v2 : Int), redisGetPointsReceived σ u = .ok v1 →
        redisGetPointsReceived (execRedis ops σ) u = .ok v2 → v1 ≤ v2) := by
  refine ⟨?_, ?_, ?_, ?_⟩
  · intro σ v1 v2 h1 h2
    have e1 := memGetPointsUsed_ok σ u v1 h1
    have e2 := memGetPointsUsed_ok _ u v2 h2
    rw [← e1, ← e2]
    exact memUsedD_execMem ops σ u h
  · intro σ v1 v2 h1 h2
    have e1 := memGetPointsReceived_ok σ u v1 h1
    have e2 := memGetPointsReceived_ok _ u v2 h2
    rw [← e1, ← e2]
    exact memRecvD_execMem ops σ u h
  · intro σ v1 v2 h1 h2
    have e1 := redisGetPointsUsed_ok σ u v1 h1
    have e2 := redisGetPointsUsed_ok _ u v2 h2
    rw [execRedis_hashes] at e2
    rw [← e1, ← e2]
    exact memUsedD_execMem ops σ.hashes u h
  · intro σ v1 v2 h1 h2
    have e1 := redisGetPointsReceived_ok σ u v1 h1
    have e2 := redisGetPointsReceived_ok _ u v2 h2
    rw [execRedis_hashes] at e2
    rw [← e1, ← e2]
    exact memRecvD_execMem ops σ.hashes u h

/-- Claim C8 witness: one nonnegative add on a concrete store raises the
read value from 1 to 3, and the amended theorem yields 1 ≤ 3. -/
theorem counters_monotone_nonneg_witness :
    memGetPointsUsed [("a", ⟨some 1, none⟩)] "a" = .ok 1
    ∧ memGetPointsUsed
        (execMem [Op.addPointsUsed "a" 2] [("a", ⟨some 1, none⟩)]) "a" = .ok 3
    ∧ (1 : Int) ≤ 3 :=
  ⟨rfl, rfl,
    (counters_monotone_nonneg [Op.addPointsUsed "a" 2] "a" (by decide)).1
      [("a", ⟨some 1, none⟩)] 1 3 rfl rfl⟩

/-- Claim C9: on the in-memory backend, `add_user_points_used(u, n)`
leaves u's POINTS_RECEIVED field (present or absent) unchanged and leaves
the record of every other user v unchanged; symmetrically
`add_user_points_received(u, n)` leaves u's POINTS_USED field and every
other record unchanged. -/
theorem inmemory_add_frame (σ : MemState) (u v : String) (n : Int) (hvu : v ≠ u) :
    fieldReceived (memAddPointsUsed σ u n) u = fieldReceived σ u
    ∧ dictFind (memAddPointsUsed σ u n) v = dictFind σ v
    ∧ fieldUsed (memAddPointsReceived σ u n) u = fieldUsed σ u
    ∧ dictFind (memAddPointsReceived σ u n) v = dictFind σ v := by
  refine ⟨?_, dictFind_dictUpd_ne σ u v _ hvu, ?_, dictFind_dictUpd_ne σ u v _ hvu⟩
  · unfold fieldReceived memAddPointsUsed
    rw [dictFind_dictUpd_self]
    cases hf : dictFind σ u with
    | none => simp [emptyUser]
    | some r => simp
  · unfold fieldUsed memAddPointsReceived
    rw [dictFind_dictUpd_self]
    cases hf : dictFind σ u with
    | none => simp [emptyUser]
    | some r => simp

/-- Claim C9 witness: the frame property at a concrete store holding
"b", with writes to the fresh user "a". -/
theorem inmemory_add_frame_witness :
    fieldReceived (memAddPointsUsed [("b", ⟨some 1, some 2⟩)] "a" 7) "a"
        = fieldReceived [("b", ⟨some 1, some 2⟩)] "a"
    ∧ dictFind (memAddPointsUsed [("b", ⟨some 1, some 2⟩)] "a" 7) "b"
        = dictFind [("b", ⟨some 1, some 2⟩)] "b"
    ∧ fieldUsed (memAddPointsReceived [("b", ⟨some 1, some 2⟩)] "a" 7) "a"
        = fieldUsed [("b", ⟨some 1, some 2⟩)] "a"
    ∧ dictFind (memAddPointsReceived [("b", ⟨some 1, some 2⟩)] "a" 7) "b"
        = dictFind [("b", ⟨some 1, some 2⟩)] "b" :=
  inmemory_add_frame [("b", ⟨some 1, some 2⟩)] "a" "b" 7 (by decide)

/-- Claim C10: on the in-memory backend every read operation leaves the
store unchanged, and a read of a never-seen user raises the `KeyError`
lookup failure without creating a record: `user_exists` for that user is
still false afterwards. -/
theorem inmemory_reads_pure (σ : MemState) (op : Op) (u : String)
    (hread : op.isRead = true) (hu : dictFind σ u = none) :
    (memStep op σ).1 = σ
    ∧ (memStep (Op.getPointsUsed u) σ).2 = .error .keyError
    ∧ (memStep (Op.getPointsReceived u) σ).2 = .error .keyError
    ∧ memUserExists (memStep (Op.getPointsUsed u) σ).1 u = false
    ∧ memUserExists (memStep (Op.getPointsReceived u) σ).1 u = false := by
  refine ⟨memStep_isRead op σ hread, ?_, ?_, ?_, ?_⟩
  · simp [memStep, memGetPointsUsed, hu, Except.map]
  · simp [memStep, memGetPointsReceived, hu, Except.map]
  · simp [memStep, memUserExists, hu]
  · simp [memStep, memUserExists, hu]

/-- Claim C10 witness: enumerating a concrete one-user store leaves it
unchanged, and reading the never-seen user "b" raises `KeyError` while
`user_exists("b")` stays false. -/
theorem inmemory_reads_pure_witness :
    (memStep Op.getUsersAndScores [("a", ⟨some 1, some 2⟩)]).1 = [("a", ⟨some 1, some 2⟩)]
    ∧ (memStep (Op.getPointsUsed "b") [("a", ⟨some 1, some 2⟩)]).2 = .error .keyError
    ∧ (memStep (Op.getPointsReceived "b") [("a", ⟨some 1, some 2⟩)]).2 = .error .keyError
    ∧ memUserExists (memStep (Op.getPointsUsed "b") [("a", ⟨some 1, some 2⟩)]).1 "b" = false
    ∧ memUserExists (memStep (Op.getPointsReceived "b") [("a", ⟨some 1, some 2⟩)]).1 "b" = false :=
  inmemory_reads_pure [("a", ⟨some 1, some 2⟩)] Op.getUsersAndScores "b" rfl rfl

end HeyFireball
